import Mathlib

/-!
Shallow embedding of the Techsewa resolution engine (src/Brain.py and
src/auto_healer.py) and proofs about it.

Conventions of the embedding: Python dictionaries keyed by strings become
insertion-ordered association lists (`List (String × Nat)`), with dictionary
assignment keeping the position of an existing key (as CPython dicts do);
Python `None`-or-string values become `Option String`; functions that may
raise become `Except`-valued; external library calls (fuzzywuzzy's
`fuzz.token_set_ratio`, `hashlib.md5`) are abstract function parameters,
since their code is not part of this repository.
-/

set_option autoImplicit false

namespace Techsewa

/-- One knowledge-base record, the JSON problem dict of Brain.py.  Keys that
may be absent in a loaded record (`en`, `np`) are `Option`s; an absent
`aliases`/`np_aliases` key is the empty list (matching `problem.get(..., [])`
behaviour of `_build_maps`, which iterates `problem.get("aliases", [])`). -/
structure ProblemRecord where
  id : String
  aliases : List String
  np_aliases : List String
  en : Option String
  np : Option String
  auto_fix : Bool
  learned : Bool
  deriving DecidableEq, Repr

/-- Default record used for out-of-range list indexing in the model; the maps
built by `_build_maps` only ever hold in-range indices, so it is never hit on
states reachable from the constructors below. -/
def defaultRecord : ProblemRecord :=
  ⟨"", [], [], none, none, false, false⟩

/-- Models `problem.get(lang)` for a language code: the record dict has the
answer texts under the top-level keys `"en"` and `"np"`; any other language
code has no answer key in a record. -/
def recGet (r : ProblemRecord) (lang : String) : Option String :=
  if lang == "en" then r.en else if lang == "np" then r.np else none

/-- Models `problem.get(lang, problem.get("en"))`: the requested language's
answer, defaulting to the `en` answer when the `lang` key is absent. -/
def answerWithFallback (r : ProblemRecord) (lang : String) : Option String :=
  match recGet r lang with
  | some a => some a
  | none => recGet r "en"

/-- Word character of the regex `\w`.  Python's `\w` is Unicode-aware; the
model uses the ASCII word characters (alphanumeric or underscore), which
agree with Python on every string the development evaluates. -/
def isWordChar (c : Char) : Bool :=
  c.isAlphanum || c == '_'

/-- Models Python's `str.lower()` characterwise (ASCII case folding). -/
def pyLower (s : String) : String :=
  ⟨s.data.map Char.toLower⟩

/-- Models Python's `str.strip()`: remove leading and trailing whitespace. -/
def pyStrip (s : String) : String :=
  ⟨((s.data.dropWhile Char.isWhitespace).reverse.dropWhile Char.isWhitespace).reverse⟩

/-- Accumulator pass splitting a character list into its maximal runs of word
characters; `cur` holds the current run reversed. -/
def wordRunsAux (cur : List Char) : List Char → List (List Char)
  | [] => if cur.isEmpty then [] else [cur.reverse]
  | c :: cs =>
    if isWordChar c then wordRunsAux (c :: cur) cs
    else if cur.isEmpty then wordRunsAux [] cs
    else cur.reverse :: wordRunsAux [] cs

/-- Models `re.findall(r'\w+', query)`: the maximal runs of word characters,
in order. -/
def wordTokens (s : String) : List String :=
  (wordRunsAux [] s.data).map (fun l => ⟨l⟩)

/-- Dictionary lookup in an insertion-ordered association list (`word in d` /
`d[word]` on a Python dict, combined into an `Option`). -/
def dictLookup (m : List (String × Nat)) (k : String) : Option Nat :=
  (m.find? (fun p => p.1 == k)).map (fun p => p.2)

/-- Dictionary assignment `d[k] = v` on a Python dict: an existing key keeps
its position in iteration order and gets the new value, a new key is appended
at the end. -/
def dictInsert (m : List (String × Nat)) (k : String) (v : Nat) : List (String × Nat) :=
  if m.any (fun p => p.1 == k) then
    m.map (fun p => if p.1 == k then (k, v) else p)
  else
    m ++ [(k, v)]

/-- Registers every alias of one record: `self.alias_map[alias.lower()] = idx`
for each alias in order. -/
def registerAliases (m : List (String × Nat)) (idx : Nat) (aliases : List String) : List (String × Nat) :=
  aliases.foldl (fun acc a => dictInsert acc (pyLower a) idx) m

/-- Models `LocalBrain._build_maps`: a full scan over the enumerated problem
list building the English and the Nepali alias map. -/
def buildMaps (problems : List ProblemRecord) : List (String × Nat) × List (String × Nat) :=
  problems.enum.foldl
    (fun acc p =>
      (registerAliases acc.1 p.1 p.2.aliases,
       registerAliases acc.2 p.1 p.2.np_aliases))
    ([], [])

/-- Cache key of the memoized `match`: `functools.lru_cache` keys on the call
arguments `(query, lang, min_confidence)` (plus `self`, which the model fixes
to one brain instance). -/
abbrev CacheKey := String × String × Nat

/-- The mutable state of a `LocalBrain` instance: the problem list, the two
alias maps built by `_build_maps`, and the `lru_cache` table attached to
`match`. -/
structure LocalBrainState where
  problems : List ProblemRecord
  alias_map : List (String × Nat)
  np_alias_map : List (String × Nat)
  cache : List (CacheKey × Option String)
  deriving Repr

/-- A brain over an empty problem list (fresh store). -/
def emptyBrain : LocalBrainState :=
  ⟨[], [], [], []⟩

/-- Phase 1 of `LocalBrain.match`: scan the query's word tokens in order and
`return problem.get(lang, problem.get("en"))` for the first token present in
the alias map.  The outer `Option` distinguishes "no token hit, fall through
to fuzzy" (`none`) from "a token hit, `match` returns this value now" —
the Python `return` fires even when the returned answer is `None`. -/
def exactPhase (problems : List ProblemRecord) (amap : List (String × Nat)) (lang q : String) : Option (Option String) :=
  match (wordTokens q).find? (fun w => (dictLookup amap w).isSome) with
  | none => none
  | some w =>
    match dictLookup amap w with
    | some idx => some (answerWithFallback (problems.getD idx defaultRecord) lang)
    | none => none

/-- Phase 2 of `LocalBrain.match`: the fuzzy scan over the alias map with the
running `best_match, best_score` pair, accepting an entry when
`score >= min_confidence and score > best_score`.  `score` stands for the
external `fuzz.token_set_ratio(query, alias)`. -/
def fuzzyScan (score : String → String → Nat) (problems : List ProblemRecord)
    (q lang : String) (minConf : Nat) :
    List (String × Nat) → Option String → Nat → Option String
  | [], best, _ => best
  | p :: rest, best, bestScore =>
    if minConf ≤ score q p.1 ∧ bestScore < score q p.1 then
      fuzzyScan score problems q lang minConf rest
        (recGet (problems.getD p.2 defaultRecord) lang) (score q p.1)
    else
      fuzzyScan score problems q lang minConf rest best bestScore

/-- The alias map `match` works on:
`self.np_alias_map if lang == "np" else self.alias_map` (computed identically
for the exact phase and again as `search_space` for the fuzzy phase). -/
def searchSpace (st : LocalBrainState) (lang : String) : List (String × Nat) :=
  if lang == "np" then st.np_alias_map else st.alias_map

/-- The normalized query `query.lower().strip()` computed at the top of
`LocalBrain.match`. -/
def normQuery (query : String) : String :=
  pyStrip (pyLower query)

/-- Models the body of `LocalBrain.match` (the pure function underneath the
`lru_cache`): lowercase and strip the query, pick the language's alias map,
try the exact token phase, then the fuzzy scan starting from
`best_match, best_score = None, 0`. -/
def pyMatch (score : String → String → Nat) (st : LocalBrainState)
    (query lang : String) (minConf : Nat) : Option String :=
  let q := normQuery query
  match exactPhase st.problems (searchSpace st lang) lang q with
  | some r => r
  | none => fuzzyScan score st.problems q lang minConf (searchSpace st lang) none 0

/-- Models calling the `lru_cache`-decorated `match`: a hit returns the cached
value unchanged, a miss computes `pyMatch` and stores it.  (The cache holds up
to 1000 entries; no scenario in this development reaches the capacity, so
eviction is not modelled.) -/
def matchCached (score : String → String → Nat) (st : LocalBrainState)
    (query lang : String) (minConf : Nat) : Option String × LocalBrainState :=
  match st.cache.find? (fun p => p.1 == (query, lang, minConf)) with
  | some p => (p.2, st)
  | none =>
    let r := pyMatch score st query lang minConf
    (r, { st with cache := st.cache ++ [((query, lang, minConf), r)] })

/-- Models `LocalBrain.add_solution`: append the new learned record, rebuild
both alias maps, persist (`_save_db`, a pure side effect outside the model).
`idOf` stands for `hashlib.md5(en_solution.encode()).hexdigest()[:8]`, a
deterministic function of the `en` answer text.  Note that the `lru_cache`
attached to `match` is left untouched. -/
def add_solution (idOf : String → String) (st : LocalBrainState)
    (aliases : List String) (en_solution : String) (np_solution : Option String) : LocalBrainState :=
  let newProblem : ProblemRecord :=
    { id := idOf en_solution
      aliases := aliases
      np_aliases := []
      en := some en_solution
      np := some (np_solution.getD en_solution)
      auto_fix := false
      learned := true }
  let problems := st.problems ++ [newProblem]
  let maps := buildMaps problems
  { problems := problems, alias_map := maps.1, np_alias_map := maps.2, cache := st.cache }

/-- Python exceptions the model distinguishes. -/
inductive PyExc where
  | nameError
  | calledProcessError
  | osError
  deriving DecidableEq, Repr

/-- Python truthiness of a string-or-None value: `None` and the empty string
are falsy, every other string is truthy. -/
def pyTruthy : Option String → Bool
  | none => false
  | some s => !(s == "")

/-- The module-level import list of Brain.py is `json`, `os`, `re`,
`requests`, `BeautifulSoup`, `lru_cache`, `fuzz`, `hashlib`.  The name `time`
is not among them, so evaluating `time.strftime(...)` in `_log_query` raises
`NameError`. -/
def timeImportedInBrainPy : Bool := false

/-- One query-history entry `{timestamp, query, lang}` appended by
`_log_query`; the timestamp string is abstracted away since its value is
never read. -/
abbrev HistoryEntry := String × String

/-- Models `SmartBrain._log_query`: it evaluates `time.strftime(...)` — which
raises `NameError` because Brain.py does not import `time`
(`timeImportedInBrainPy` is false) — and would append the entry to
`query_history`. -/
def logQuery (history : List HistoryEntry) (query lang : String) : Except PyExc (List HistoryEntry) :=
  if timeImportedInBrainPy then .ok (history ++ [(query, lang)])
  else .error .nameError

/-- The result dict of `SmartBrain.solve` and `_try_local_solve`. -/
structure SolveResult where
  source : String
  answer : String
  confidence : Nat
  deriving DecidableEq, Repr

/-- Models `SmartBrain._try_local_solve`: first the cached `match` at
confidence 100, then at `min_conf`; a falsy answer (`None` or `""`) does not
count as a hit.  The `lru_cache` state is threaded through. -/
def tryLocalSolve (score : String → String → Nat) (st : LocalBrainState)
    (query lang : String) (minConf : Nat) : Option SolveResult × LocalBrainState :=
  let em := matchCached score st query lang 100
  if pyTruthy em.1 then
    (em.1.map (fun a => ⟨"local", a, 100⟩), em.2)
  else
    let fm := matchCached score em.2 query lang minConf
    if pyTruthy fm.1 then
      (fm.1.map (fun a => ⟨"local", a, minConf⟩), fm.2)
    else
      (none, fm.2)

/-- Outcome of one backend attempt inside `InternetBrain.search`: the call
`self._try_engine(engine, query, lang)` either raises (network failure,
missing HTML element while parsing, timeout) or returns the parsed value,
which is `None` or the joined snippet string.  The HTTP and HTML machinery
itself lies outside the model; `search` is judged against an arbitrary list
of backend outcomes. -/
abbrev BackendOutcome := Except Unit (Option String)

/-- The fixed sentinel `InternetBrain.search` returns when every engine has
failed. -/
def noResultsSentinel : String := "❌ All search attempts failed. Please try again later."

/-- Models the loop of `InternetBrain.search`: try each engine in order; a
raised exception is swallowed (`except Exception: continue`); a falsy result
(`None` or `""`) falls through (`if results:`); the first truthy result is
returned; when the engines are exhausted the sentinel is returned. -/
def searchLoop : List BackendOutcome → String
  | [] => noResultsSentinel
  | o :: rest =>
    match o with
    | .error _ => searchLoop rest
    | .ok r => if pyTruthy r then r.getD "" else searchLoop rest

/-- A backend attempt that does not produce a truthy result: it raised, or it
parsed to `None` or to an empty string. -/
def backendFailed : BackendOutcome → Bool
  | .error _ => true
  | .ok r => !(pyTruthy r)

/-- The state of a `SmartBrain` instance that `solve` touches. -/
structure SmartBrainState where
  localKB : LocalBrainState
  enable_internet : Bool
  query_history : List HistoryEntry
  deriving Repr

/-- Models `SmartBrain.solve`: log the query first (`self._log_query`), then
try the local brain, then the internet fallback when enabled, else the
local-only sentinel result.  `webOutcomes` are the backend outcomes
`InternetBrain.search` would observe on this call. -/
def solve (score : String → String → Nat) (webOutcomes : List BackendOutcome)
    (bs : SmartBrainState) (query lang : String) (minConf : Nat) :
    Except PyExc (SolveResult × SmartBrainState) :=
  match logQuery bs.query_history query lang with
  | .error e => .error e
  | .ok h =>
    let bs1 : SmartBrainState := { bs with query_history := h }
    let ls := tryLocalSolve score bs1.localKB query lang minConf
    let bs2 : SmartBrainState := { bs1 with localKB := ls.2 }
    match ls.1 with
    | some r => .ok (r, bs2)
    | none =>
      if bs2.enable_internet then
        .ok (⟨"internet", searchLoop webOutcomes, 0⟩, bs2)
      else
        .ok (⟨"none", "❌ No solution found in local knowledge base.", 0⟩, bs2)

/-- The problem-type enum of auto_healer.py. -/
inductive ProblemType where
  | NETWORK
  | POWER
  | CPU
  | MEMORY
  | STORAGE
  | SOFTWARE
  deriving DecidableEq, Repr

/-- Outcome of executing one OS command: ran with exit status zero, ran with
a nonzero exit status (with `check=True` this raises
`subprocess.CalledProcessError`), or the executable was not found
(`subprocess.run` raises `FileNotFoundError`, an `OSError`). -/
inductive CmdOutcome where
  | ok
  | exitNonzero
  | cmdMissing
  deriving DecidableEq, Repr

/-- Models `subprocess.run(cmd, check=True)` under an environment assigning
an outcome to each command line. -/
def runCheck (env : List String → CmdOutcome) (cmd : List String) : Except PyExc Unit :=
  match env cmd with
  | .ok => .ok ()
  | .exitNonzero => .error .calledProcessError
  | .cmdMissing => .error .osError

/-- Models `AutoHealer._heal_network`: run the per-platform command sequence
with `check=True` and return `True`; the surrounding `try` catches only
`subprocess.CalledProcessError` (returning `False`), so any other exception —
in particular the `FileNotFoundError` raised when a command is unavailable —
propagates out of the method. -/
def healNetwork (env : List String → CmdOutcome) (isWindows : Bool) : Except PyExc Bool :=
  let body : Except PyExc Bool :=
    if isWindows then do
      runCheck env ["ipconfig", "/release"]
      runCheck env ["ipconfig", "/renew"]
      runCheck env ["netsh", "winsock", "reset"]
      pure true
    else do
      runCheck env ["sudo", "service", "network-manager", "restart"]
      pure true
  match body with
  | .error .calledProcessError => .ok false
  | r => r

/-- Models `AutoHealer._heal_power`: the body reads the battery state (`none`
when no battery sensor is present) and returns `False` below 10 percent; the
bare `except:` turns any exception raised by the body into `False`. -/
def healPower (battery : Except Unit (Option Nat)) : Bool :=
  match battery with
  | .error _ => false
  | .ok (some p) => if p < 10 then false else true
  | .ok none => true

/-- Models `AutoHealer._heal_cpu`: the process-terminating body (whose inner
failures are already `continue`d) runs and the method returns `True`; the
bare `except:` turns any escaping exception into `False`. -/
def healCpu (body : Except Unit Unit) : Bool :=
  match body with
  | .error _ => false
  | .ok _ => true

/-- Models `AutoHealer._heal_memory`: bare `except:`, `True` when the body
completes, `False` when it raises. -/
def healMemory (body : Except Unit Unit) : Bool :=
  match body with
  | .error _ => false
  | .ok _ => true

/-- Models `AutoHealer._heal_storage`: bare `except:`, `True` when the body
completes (the `cleanmgr` run included), `False` when anything raises. -/
def healStorage (body : Except Unit Unit) : Bool :=
  match body with
  | .error _ => false
  | .ok _ => true

/-- Models `AutoHealer._heal_software`: bare `except:`, `True` when the body
completes, `False` when anything raises. -/
def healSoftware (body : Except Unit Unit) : Bool :=
  match body with
  | .error _ => false
  | .ok _ => true

/-- The environment one `AutoHealer.heal` call runs against: the platform,
the command outcomes, and the abstract outcomes of the bodies guarded by
bare `except:` handlers. -/
structure HealEnv where
  isWindows : Bool
  runCmd : List String → CmdOutcome
  battery : Except Unit (Option Nat)
  cpuBody : Except Unit Unit
  memBody : Except Unit Unit
  storageBody : Except Unit Unit
  softwareBody : Except Unit Unit

/-- Models `AutoHealer.heal`: dispatch through the `healing_actions` table —
which maps every one of the six problem types, so the `return False` default
for an unknown type is unreachable — and run the action.  `heal` itself has
no exception handler, so an exception escaping an action escapes `heal`. -/
def heal (env : HealEnv) (pt : ProblemType) : Except PyExc Bool :=
  match pt with
  | .NETWORK => healNetwork env.runCmd env.isWindows
  | .POWER => .ok (healPower env.battery)
  | .CPU => .ok (healCpu env.cpuBody)
  | .MEMORY => .ok (healMemory env.memBody)
  | .STORAGE => .ok (healStorage env.storageBody)
  | .SOFTWARE => .ok (healSoftware env.softwareBody)

/-- The maximal fuzzy score any entry of an alias map achieves against a
query (0 for the empty map). -/
def maxScore (score : String → String → Nat) (q : String) (l : List (String × Nat)) : Nat :=
  l.foldr (fun p acc => max (score q p.1) acc) 0

/-! ### Concrete fixtures used by witnesses and counterexamples -/

/-- Models `LocalBrain._load_db` on an already-parsed, well-formed record
list: store the problems and build both alias maps (`_build_maps`); the
`lru_cache` starts empty. -/
def loadBrain (problems : List ProblemRecord) : LocalBrainState :=
  { problems := problems
    alias_map := (buildMaps problems).1
    np_alias_map := (buildMaps problems).2
    cache := [] }

/-- A concrete stand-in for `hashlib.md5(en_solution.encode()).hexdigest()[:8]`
used when a scenario needs the id function instantiated: like the real one it
is a deterministic function of the answer text alone. -/
def witId : String → String := fun s => s.take 8

/-- Score function agreeing with `fuzz.token_set_ratio` on every pair it is
applied to in the scenarios below: two identical strings have token-set
similarity 100. -/
def witScoreEq : String → String → Nat := fun a b => if a == b then 100 else 0

/-- Score function for scenarios in which the fuzzy phase is irrelevant (the
exact phase returns first) or unreachable (empty search space). -/
def witScore0 : String → String → Nat := fun _ _ => 0

/-- Score function staging a fuzzy tie: both printer aliases score 80 against
any query, every other alias scores 0. -/
def witScoreTie : String → String → Nat :=
  fun _ a => if a == "printer jam" || a == "paper stuck" then 80 else 0

def witRecordPrinter : ProblemRecord :=
  ⟨"aa11aa11", ["printer jam"], [], some "Fix the printer.", none, false, false⟩

def witRecordPaper : ProblemRecord :=
  ⟨"bb22bb22", ["paper stuck"], [], some "Remove the paper.", none, false, false⟩

/-- Two-record store whose aliases are multi-word printer phrases (so no
single query token ever matches exactly). -/
def witStorePrinter : LocalBrainState :=
  loadBrain [witRecordPrinter, witRecordPaper]

def witRecordWifi : ProblemRecord :=
  ⟨"cc33cc33", ["wifi"], [], some "Restart your router.", none, false, false⟩

/-- Store with the single-token alias "wifi". -/
def witStoreWifi : LocalBrainState :=
  loadBrain [witRecordWifi]

def cexRecordFoo : ProblemRecord :=
  ⟨"dd44dd44", ["foo"], [], some "A0", none, false, false⟩

def cexRecordBar : ProblemRecord :=
  ⟨"ee55ee55", ["bar"], [], some "A1", none, false, false⟩

/-- Store mapping the token "foo" to answer "A0" and the token "bar" to
answer "A1". -/
def cexStoreFooBar : LocalBrainState :=
  loadBrain [cexRecordFoo, cexRecordBar]

/-- Record with a Nepali alias but no Nepali answer (only `en`). -/
def cexRecordNoNp : ProblemRecord :=
  ⟨"ff66ff66", [], ["abc def"], some "E", none, false, false⟩

def cexStoreNoNp : LocalBrainState :=
  loadBrain [cexRecordNoNp]

/-- First step of the stale-cache scenario: a `match` miss on the fresh brain
populates the cache with `("zoom", "en", 75) ↦ None`. -/
def staleStep1 : Option String × LocalBrainState :=
  matchCached witScore0 emptyBrain "zoom" "en" 75

/-- The brain after teaching the zoom fix: `add_solution` rebuilds the alias
maps but leaves the `lru_cache` table as it was. -/
def staleStore : LocalBrainState :=
  add_solution witId staleStep1.2 ["zoom"] "Fix zoom installation." none

/-- Store produced by teaching the same answer text twice under different
aliases. -/
def cexIdStore : LocalBrainState :=
  add_solution witId (add_solution witId emptyBrain ["a"] "Same answer." none)
    ["b"] "Same answer." none

/-- Heal-call environment on a Windows host where every OS command is
unavailable, so `subprocess.run` raises `FileNotFoundError` (an `OSError`). -/
def cexHealEnv : HealEnv :=
  ⟨true, fun _ => .cmdMissing, .ok none, .ok (), .ok (), .ok (), .ok ()⟩

/-! ### Shared lemmas about the matching engine -/

theorem maxScore_cons (score : String → String → Nat) (q : String)
    (p : String × Nat) (rest : List (String × Nat)) :
    maxScore score q (p :: rest) = max (score q p.1) (maxScore score q rest) := rfl

theorem le_maxScore (score : String → String → Nat) (q : String) :
    ∀ (l : List (String × Nat)) (p : String × Nat), p ∈ l →
      score q p.1 ≤ maxScore score q l := by
  intro l
  induction l with
  | nil => intro p hp; cases hp
  | cons hd rest ih =>
    intro p hp
    rw [maxScore_cons]
    rcases List.mem_cons.mp hp with rfl | hmem
    · exact Nat.le_max_left _ _
    · exact Nat.le_trans (ih p hmem) (Nat.le_max_right _ _)

theorem exists_maxScore (score : String → String → Nat) (q : String) :
    ∀ l : List (String × Nat), 0 < maxScore score q l →
      ∃ p ∈ l, score q p.1 = maxScore score q l := by
  intro l
  induction l with
  | nil => intro h; exact absurd h (by simp [maxScore])
  | cons p rest ih =>
    intro h
    rw [maxScore_cons] at h ⊢
    rcases Nat.le_total (maxScore score q rest) (score q p.1) with hle | hle
    · exact ⟨p, List.mem_cons_self _ _, (Nat.max_eq_left hle).symm⟩
    · rw [Nat.max_eq_right hle] at h ⊢
      obtain ⟨p', hp', he⟩ := ih h
      exact ⟨p', List.mem_cons_of_mem _ hp', he⟩

/-- A scan over entries that all either miss the threshold or fail to beat
the running best score leaves the accumulator unchanged. -/
theorem fuzzyScan_skip (score : String → String → Nat) (problems : List ProblemRecord)
    (q lang : String) (minConf : Nat) :
    ∀ (l : List (String × Nat)) (best : Option String) (bs : Nat),
      (∀ p ∈ l, score q p.1 < minConf ∨ score q p.1 ≤ bs) →
      fuzzyScan score problems q lang minConf l best bs = best := by
  intro l
  induction l with
  | nil => intro best bs _; rfl
  | cons p rest ih =>
    intro best bs h
    have hp := h p (List.mem_cons_self _ _)
    simp only [fuzzyScan]
    rw [if_neg]
    · exact ih best bs (fun p' hp' => h p' (List.mem_cons_of_mem _ hp'))
    · intro hc
      rcases hp with h1 | h1
      · exact absurd hc.1 (by omega)
      · exact absurd hc.2 (by omega)

/-- When the threshold is met by the maximal score `M` and the running best
is still below `M`, the scan ends on the answer of the first entry achieving
`M`: the strict `score > best_score` comparison means later entries with an
equal score never displace it. -/
theorem fuzzyScan_max (score : String → String → Nat) (problems : List ProblemRecord)
    (q lang : String) (minConf M : Nat) :
    ∀ (l : List (String × Nat)) (best : Option String) (bs : Nat) (p0 : String × Nat),
      l.find? (fun p => score q p.1 == M) = some p0 →
      (∀ p ∈ l, score q p.1 ≤ M) →
      bs < M → minConf ≤ M →
      fuzzyScan score problems q lang minConf l best bs
        = recGet (problems.getD p0.2 defaultRecord) lang := by
  intro l
  induction l with
  | nil => intro best bs p0 hfind _ _ _; exact absurd hfind (by simp)
  | cons p rest ih =>
    intro best bs p0 hfind hle hbs hmc
    by_cases hM : score q p.1 = M
    · rw [List.find?_cons_of_pos _ (by simp [hM])] at hfind
      injection hfind with hp0
      subst hp0
      simp only [fuzzyScan]
      rw [if_pos ⟨by omega, by omega⟩]
      exact fuzzyScan_skip score problems q lang minConf rest _ _
        (fun p' hp' => Or.inr (by
          have := hle p' (List.mem_cons_of_mem _ hp')
          omega))
    · rw [List.find?_cons_of_neg _ (by simp [hM])] at hfind
      have hple := hle p (List.mem_cons_self _ _)
      simp only [fuzzyScan]
      split
      · next hc =>
        exact ih _ _ p0 hfind (fun p' hp' => hle p' (List.mem_cons_of_mem _ hp'))
          (by omega) hmc
      · exact ih best bs p0 hfind (fun p' hp' => hle p' (List.mem_cons_of_mem _ hp')) hbs hmc

/-- Unfolding `pyMatch` when the exact phase hits: the hit value is returned
as is, whatever the score function and the threshold. -/
theorem pyMatch_of_exact (score : String → String → Nat) (st : LocalBrainState)
    (query lang : String) (minConf : Nat) (r : Option String)
    (h : exactPhase st.problems (searchSpace st lang) lang (normQuery query) = some r) :
    pyMatch score st query lang minConf = r := by
  simp only [pyMatch, h]

/-- Unfolding `pyMatch` when the exact phase misses: the result is the fuzzy
scan from `best_match, best_score = None, 0`. -/
theorem pyMatch_of_noexact (score : String → String → Nat) (st : LocalBrainState)
    (query lang : String) (minConf : Nat)
    (h : exactPhase st.problems (searchSpace st lang) lang (normQuery query) = none) :
    pyMatch score st query lang minConf
      = fuzzyScan score st.problems (normQuery query) lang minConf (searchSpace st lang) none 0 := by
  simp only [pyMatch, h]

/-! ### Claim theorems -/

/-- C9: threshold monotonicity of `match` — for every query, language and
thresholds `t1 > t2`, whenever `match` at threshold `t1` returns a positive
result, `match` at `t2` on the same store returns that same result.  The
statement is universal in the score function, so it holds in particular for
`fuzz.token_set_ratio`. -/
theorem match_threshold_monotone (score : String → String → Nat)
    (st : LocalBrainState) (query lang : String) (t1 t2 : Nat) (a : String)
    (ht : t2 < t1) (h1 : pyMatch score st query lang t1 = some a) :
    pyMatch score st query lang t2 = some a := by
  cases hex : exactPhase st.problems (searchSpace st lang) lang (normQuery query) with
  | some r =>
    rw [pyMatch_of_exact score st query lang t1 r hex] at h1
    rw [pyMatch_of_exact score st query lang t2 r hex]
    exact h1
  | none =>
    rw [pyMatch_of_noexact score st query lang t1 hex] at h1
    rw [pyMatch_of_noexact score st query lang t2 hex]
    rcases Nat.eq_zero_or_pos (maxScore score (normQuery query) (searchSpace st lang)) with h0 | h0
    · rw [fuzzyScan_skip score st.problems (normQuery query) lang t1 (searchSpace st lang) none 0
        (fun p hp => Or.inr (by have := le_maxScore score (normQuery query) (searchSpace st lang) p hp; omega))] at h1
      exact absurd h1 (by simp)
    · by_cases ht1 : t1 ≤ maxScore score (normQuery query) (searchSpace st lang)
      · obtain ⟨p0, hp0mem, hp0⟩ := exists_maxScore score (normQuery query) (searchSpace st lang) h0
        have hsome : ((searchSpace st lang).find?
            (fun p => score (normQuery query) p.1 == maxScore score (normQuery query) (searchSpace st lang))).isSome :=
          List.find?_isSome.mpr ⟨p0, hp0mem, by simp [hp0]⟩
        obtain ⟨p1, hfind⟩ := Option.isSome_iff_exists.mp hsome
        rw [fuzzyScan_max score st.problems (normQuery query) lang t1 _ (searchSpace st lang) none 0 p1 hfind
          (fun p hp => le_maxScore score (normQuery query) (searchSpace st lang) p hp) h0 ht1] at h1
        rw [fuzzyScan_max score st.problems (normQuery query) lang t2 _ (searchSpace st lang) none 0 p1 hfind
          (fun p hp => le_maxScore score (normQuery query) (searchSpace st lang) p hp) h0 (by omega)]
        exact h1
      · rw [fuzzyScan_skip score st.problems (normQuery query) lang t1 (searchSpace st lang) none 0
          (fun p hp => Or.inl (by have := le_maxScore score (normQuery query) (searchSpace st lang) p hp; omega))] at h1
        exact absurd h1 (by simp)

/-- Witness for C9: on the concrete printer store, a fuzzy hit at threshold
80 is reproduced at the relaxed threshold 60. -/
theorem match_threshold_monotone_witness :
    pyMatch witScoreTie witStorePrinter "paper jam" "en" 60 = some "Fix the printer." :=
  match_threshold_monotone witScoreTie witStorePrinter "paper jam" "en" 80 60
    "Fix the printer." (by decide) (by decide)

/-- C10 (amended): fuzzy tie-break — when the exact phase misses and the
POSITIVE maximal score `s` (achieved by the first entry `p0` of the scan,
witnessed by `find?`, and also by at least one later entry `p1`: a genuine
tie) clears the threshold, `match` returns `p0`'s record answer: a later
alias with an equal score never displaces the one encountered first in the
stable iteration order of the alias map.  Positivity is needed: in the
degenerate tie at score 0 (reachable only with `min_confidence = 0`) the
scan's strict `score > best_score` comparison, starting from
`best_score = 0`, accepts nothing and `match` returns `None` — see the
counterexample below. -/
theorem match_fuzzy_tiebreak (score : String → String → Nat) (st : LocalBrainState)
    (query lang : String) (minConf s : Nat) (p0 p1 : String × Nat)
    (hexact : exactPhase st.problems (searchSpace st lang) lang (normQuery query) = none)
    (hle : ∀ p ∈ searchSpace st lang, score (normQuery query) p.1 ≤ s)
    (hfind : (searchSpace st lang).find? (fun p => score (normQuery query) p.1 == s) = some p0)
    (_htie : p1 ∈ searchSpace st lang ∧ p1 ≠ p0 ∧ score (normQuery query) p1.1 = s)
    (hth : minConf ≤ s) (hs : 0 < s) :
    pyMatch score st query lang minConf
      = recGet (st.problems.getD p0.2 defaultRecord) lang := by
  rw [pyMatch_of_noexact score st query lang minConf hexact]
  exact fuzzyScan_max score st.problems (normQuery query) lang minConf s
    (searchSpace st lang) none 0 p0 hfind hle hs hth

/-- Witness for C10: both printer aliases score 80 on the query, and `match`
returns the answer of the first one in the map's iteration order. -/
theorem match_fuzzy_tiebreak_witness :
    pyMatch witScoreTie witStorePrinter "tray error" "en" 60 = some "Fix the printer." :=
  (match_fuzzy_tiebreak witScoreTie witStorePrinter "tray error" "en" 60 80
    ("printer jam", 0) ("paper stuck", 1) (by decide) (by decide) (by decide)
    ⟨by decide, by decide, by decide⟩ (by decide) (by decide)).trans (by decide)

/-- C10 counterexample: in the foo/bar store, the query "zzz" has no exact
token hit and both aliases are tied at the best fuzzy score 0, which is at
or above the threshold `min_confidence = 0`; the claim as stated predicts
the first tied alias's record answer "A0", but `match` returns `None`: the
scan's strict `score > best_score` comparison starts from `best_score = 0`
and never accepts a 0-scoring alias.  (`fuzz.token_set_ratio` really returns
0 for token-disjoint strings, and 0 is a legal threshold on the spec's
0–100 scale, so the input is reachable.) -/
theorem match_fuzzy_tiebreak_cex :
    exactPhase cexStoreFooBar.problems (searchSpace cexStoreFooBar "en") "en" (normQuery "zzz") = none
    ∧ witScore0 (normQuery "zzz") "foo" = 0
    ∧ witScore0 (normQuery "zzz") "bar" = 0
    ∧ maxScore witScore0 (normQuery "zzz") (searchSpace cexStoreFooBar "en") = 0
    ∧ recGet (cexStoreFooBar.problems.getD 0 defaultRecord) "en" = some "A0"
    ∧ pyMatch witScore0 cexStoreFooBar "zzz" "en" 0 = none
    ∧ pyMatch witScore0 cexStoreFooBar "zzz" "en" 0
        ≠ recGet (cexStoreFooBar.problems.getD 0 defaultRecord) "en" := by
  refine ⟨by decide, by decide, by decide, by decide, by decide, by decide, by decide⟩

/-- C2 (amended): exact-token override — when some token of the normalized
query is present verbatim in the requested language's alias map, `match`
returns the record answer (with `en` fallback) of the FIRST such token in the
query's token order, regardless of the score function (universally
quantified, so in particular whatever `fuzz.token_set_ratio` would say) and
regardless of `min_confidence`: the fuzzy phase is never consulted. -/
theorem match_exact_override (score : String → String → Nat) (st : LocalBrainState)
    (query lang : String) (minConf : Nat) (w : String) (idx : Nat)
    (hw : (wordTokens (normQuery query)).find?
      (fun w' => (dictLookup (searchSpace st lang) w').isSome) = some w)
    (hidx : dictLookup (searchSpace st lang) w = some idx) :
    pyMatch score st query lang minConf
      = answerWithFallback (st.problems.getD idx defaultRecord) lang := by
  have hex : exactPhase st.problems (searchSpace st lang) lang (normQuery query)
      = some (answerWithFallback (st.problems.getD idx defaultRecord) lang) := by
    simp only [exactPhase, hw, hidx]
  exact pyMatch_of_exact score st query lang minConf _ hex

/-- Witness for C2: the token "wifi" of "my wifi is down" matches the alias
"wifi" exactly, and the record answer is returned at any threshold even
though the score function gives every alias score 0. -/
theorem match_exact_override_witness :
    pyMatch witScore0 witStoreWifi "my wifi is down" "en" 75 = some "Restart your router." :=
  (match_exact_override witScore0 witStoreWifi "my wifi is down" "en" 75 "wifi" 0
    (by decide) (by decide)).trans (by decide)

/-- C2 counterexample: in the store mapping "foo" to record 0 (answer "A0")
and "bar" to record 1 (answer "A1"), the query "foo bar" contains the token
"bar", present verbatim in the index with record answer "A1", yet `match`
returns "A0" (the FIRST matching token wins) — so the claim read as "for
every query containing an exactly-matching token, `match` returns THAT
alias's record answer" fails at the token "bar". -/
theorem match_exact_override_cex :
    (wordTokens (normQuery "foo bar")).contains "bar" = true
    ∧ dictLookup (searchSpace cexStoreFooBar "en") "bar" = some 1
    ∧ answerWithFallback (cexStoreFooBar.problems.getD 1 defaultRecord) "en" = some "A1"
    ∧ pyMatch witScore0 cexStoreFooBar "foo bar" "en" 75 = some "A0"
    ∧ pyMatch witScore0 cexStoreFooBar "foo bar" "en" 75 ≠ some "A1" := by
  refine ⟨by decide, by decide, by decide, by decide, by decide⟩

/-- C5 (amended): the answer returned by `LocalBrain.match` is the matched
record's answer for the requested language with `en` fallback on the
exact-token path (first conjunct), but WITHOUT the `en` fallback on the
fuzzy path (second conjunct): a fuzzily-matched record lacking the
language-specific answer yields `None`, not its `en` answer. -/
theorem match_answer_fallback (score : String → String → Nat) (st : LocalBrainState)
    (query lang : String) (minConf : Nat) :
    (∀ w idx,
      (wordTokens (normQuery query)).find?
        (fun w' => (dictLookup (searchSpace st lang) w').isSome) = some w →
      dictLookup (searchSpace st lang) w = some idx →
      pyMatch score st query lang minConf
        = answerWithFallback (st.problems.getD idx defaultRecord) lang)
    ∧ (∀ s p0,
      exactPhase st.problems (searchSpace st lang) lang (normQuery query) = none →
      (∀ p ∈ searchSpace st lang, score (normQuery query) p.1 ≤ s) →
      (searchSpace st lang).find? (fun p => score (normQuery query) p.1 == s) = some p0 →
      minConf ≤ s → 0 < s →
      pyMatch score st query lang minConf
        = recGet (st.problems.getD p0.2 defaultRecord) lang) := by
  constructor
  · intro w idx hw hidx
    have hex : exactPhase st.problems (searchSpace st lang) lang (normQuery query)
        = some (answerWithFallback (st.problems.getD idx defaultRecord) lang) := by
      simp only [exactPhase, hw, hidx]
    exact pyMatch_of_exact score st query lang minConf _ hex
  · intro s p0 hexact hle hfind hth hs
    rw [pyMatch_of_noexact score st query lang minConf hexact]
    exact fuzzyScan_max score st.problems (normQuery query) lang minConf s
      (searchSpace st lang) none 0 p0 hfind hle hs hth

/-- Witness for C5: the exact path on the wifi store returns the `en` answer,
and the fuzzy path on the Nepali store whose record has no `np` answer
returns nothing (no fallback), with a score function that agrees with
`token_set_ratio` on the evaluated pair (identical strings score 100). -/
theorem match_answer_fallback_witness :
    pyMatch witScore0 witStoreWifi "the wifi dropped" "en" 80 = some "Restart your router."
    ∧ pyMatch witScoreEq cexStoreNoNp "abc def" "np" 75 = none :=
  ⟨((match_answer_fallback witScore0 witStoreWifi "the wifi dropped" "en" 80).1
      "wifi" 0 (by decide) (by decide)).trans (by decide),
   ((match_answer_fallback witScoreEq cexStoreNoNp "abc def" "np" 75).2
      100 ("abc def", 0) (by decide) (by decide) (by decide) (by decide) (by decide)).trans (by decide)⟩

/-- C5 counterexample: the only record of `cexStoreNoNp` is fuzzily matched
(its alias "abc def" scores 100, which `token_set_ratio` also gives a pair of
identical strings, against threshold 75), and the claim predicts the `en`
fallback answer "E"; the code returns `None` because the fuzzy path reads
`problems[idx].get(lang)` with no fallback. -/
theorem match_answer_fallback_cex :
    answerWithFallback (cexStoreNoNp.problems.getD 0 defaultRecord) "np" = some "E"
    ∧ pyMatch witScoreEq cexStoreNoNp "abc def" "np" 75 = none
    ∧ pyMatch witScoreEq cexStoreNoNp "abc def" "np" 75
        ≠ answerWithFallback (cexStoreNoNp.problems.getD 0 defaultRecord) "np" := by
  refine ⟨by decide, by decide, by decide⟩

/-- C4 (amended): teach/match round-trip on a fresh store.  After
`add_solution(aliases=[q], en_solution=a_en, np_solution=a_np)` on a fresh
store, `match(q, "en", t)` returns `a_en` for every threshold `t ≤ 100`,
assuming only that the score function rates the normalized query against the
lowered alias (two strings with equal token sets) at 100, as
`fuzz.token_set_ratio` does.  But `match(q, "np", t)` returns `None` for
every threshold: `add_solution` stores the taught alias under the English
`aliases` key only, so the Nepali alias map stays empty. -/
theorem teach_match_roundtrip (idOf : String → String) (score : String → String → Nat)
    (q a_en a_np : String) (t : Nat) (ht : t ≤ 100)
    (hscore : score (normQuery q) (pyLower q) = 100) :
    pyMatch score (add_solution idOf emptyBrain [q] a_en (some a_np)) q "en" t = some a_en
    ∧ pyMatch score (add_solution idOf emptyBrain [q] a_en (some a_np)) q "np" t = none := by
  constructor
  · have hstep : pyMatch score (add_solution idOf emptyBrain [q] a_en (some a_np)) q "en" t
        = (match exactPhase (add_solution idOf emptyBrain [q] a_en (some a_np)).problems
            [(pyLower q, 0)] "en" (normQuery q) with
           | some r => r
           | none => fuzzyScan score (add_solution idOf emptyBrain [q] a_en (some a_np)).problems
               (normQuery q) "en" t [(pyLower q, 0)] none 0) := rfl
    rw [hstep]
    cases hf : (wordTokens (normQuery q)).find? (fun w' => (dictLookup [(pyLower q, 0)] w').isSome) with
    | some w =>
      have hwpred : (dictLookup [(pyLower q, 0)] w).isSome = true := by
        simpa using List.find?_some hf
      have hlook : dictLookup [(pyLower q, 0)] w = some 0 := by
        unfold dictLookup at hwpred ⊢
        cases hbe : (pyLower q == w) with
        | true => simp [List.find?, hbe]
        | false => simp [List.find?, hbe] at hwpred
      simp only [exactPhase, hf, hlook]
      rfl
    | none =>
      simp only [exactPhase, hf, fuzzyScan, hscore]
      rw [if_pos ⟨by omega, by omega⟩]
      rfl
  · have hfindnp : (wordTokens (normQuery q)).find?
        (fun w' => (dictLookup ([] : List (String × Nat)) w').isSome) = none :=
      List.find?_eq_none.mpr (fun x _ => by simp [dictLookup])
    have hex : exactPhase (add_solution idOf emptyBrain [q] a_en (some a_np)).problems
        (searchSpace (add_solution idOf emptyBrain [q] a_en (some a_np)) "np") "np"
        (normQuery q) = none := by
      simp only [exactPhase]
      rw [show searchSpace (add_solution idOf emptyBrain [q] a_en (some a_np)) "np"
          = ([] : List (String × Nat)) from rfl]
      rw [hfindnp]
    rw [pyMatch_of_noexact score _ q "np" t hex]
    rfl

/-- Witness for C4 at a concrete taught record and threshold 75. -/
theorem teach_match_roundtrip_witness :
    pyMatch witScoreEq (add_solution witId emptyBrain ["zoom not working"] "Reinstall Zoom." (some "np fix"))
      "zoom not working" "en" 75 = some "Reinstall Zoom."
    ∧ pyMatch witScoreEq (add_solution witId emptyBrain ["zoom not working"] "Reinstall Zoom." (some "np fix"))
      "zoom not working" "np" 75 = none :=
  teach_match_roundtrip witId witScoreEq "zoom not working" "Reinstall Zoom." "np fix" 75
    (by decide) (by decide)

/-- C4 counterexample: after `add_solution(aliases=["zoom"], en_solution=
"Fix zoom.", np_solution="np fix")` on a fresh store, the claim says
`match("zoom", "np", 75)` returns "np fix"; the code returns `None`, because
the taught alias is registered only in the English alias map. -/
theorem teach_match_roundtrip_cex :
    pyMatch witScoreEq (add_solution witId emptyBrain ["zoom"] "Fix zoom." (some "np fix")) "zoom" "np" 75 = none
    ∧ pyMatch witScoreEq (add_solution witId emptyBrain ["zoom"] "Fix zoom." (some "np fix")) "zoom" "np" 75
        ≠ some "np fix" := by
  refine ⟨by decide, by decide⟩

/-- C3: the stale-cache scenario evaluated on the code.  On a fresh brain,
`match("zoom", "en", 75)` misses and the miss is cached (`staleStep1`); then
`add_solution(["zoom"], "Fix zoom installation.")` teaches the answer without
touching the `lru_cache`; the next `match("zoom", "en", 75)` call returns the
stale cached `None`, although the underlying (invalidated-cache) match of the
same store returns the newly taught answer. -/
theorem teach_cache_stale :
    staleStep1.1 = none
    ∧ (matchCached witScore0 staleStore "zoom" "en" 75).1 = none
    ∧ pyMatch witScore0 staleStore "zoom" "en" 75 = some "Fix zoom installation." := by
  refine ⟨by decide, by decide, by decide⟩

/-- C7 (amended): the id of a taught record is a deterministic function of
the `en` answer alone (`md5(en_solution)[:8]`), so any two `add_solution`
calls with the same `en_solution` — whatever their aliases and Nepali
answers — append records with the SAME id; uniqueness holds only between
records whose `en` answers hash to different prefixes. -/
theorem add_solution_id_collision (idOf : String → String) (st : LocalBrainState)
    (al1 al2 : List String) (en_sol : String) (np1 np2 : Option String) :
    ∀ r ∈ (add_solution idOf (add_solution idOf st al1 en_sol np1) al2 en_sol np2).problems.drop
        st.problems.length,
      r.id = idOf en_sol := by
  intro r hr
  have hassoc :
      (add_solution idOf (add_solution idOf st al1 en_sol np1) al2 en_sol np2).problems
        = st.problems
          ++ [{ id := idOf en_sol, aliases := al1, np_aliases := [], en := some en_sol,
                np := some (np1.getD en_sol), auto_fix := false, learned := true },
              { id := idOf en_sol, aliases := al2, np_aliases := [], en := some en_sol,
                np := some (np2.getD en_sol), auto_fix := false, learned := true }] :=
    List.append_assoc _ _ _
  rw [hassoc, List.drop_left] at hr
  rcases List.mem_cons.mp hr with rfl | hr2
  · rfl
  · rcases List.mem_cons.mp hr2 with rfl | h
    · rfl
    · cases h

/-- Witness for C7 at the concrete double-teach store. -/
theorem add_solution_id_collision_witness :
    (cexIdStore.problems.getD 1 defaultRecord).id = witId "Same answer." :=
  add_solution_id_collision witId emptyBrain ["a"] ["b"] "Same answer." none none
    (cexIdStore.problems.getD 1 defaultRecord) (by decide)

/-- C7 counterexample: teaching the answer "Same answer." twice under the
aliases ["a"] and then ["b"] yields two distinct records in the store with
equal `id` values, refuting "every two distinct records have distinct id". -/
theorem add_solution_id_collision_cex :
    cexIdStore.problems.getD 0 defaultRecord ≠ cexIdStore.problems.getD 1 defaultRecord
    ∧ (cexIdStore.problems.getD 0 defaultRecord).id = (cexIdStore.problems.getD 1 defaultRecord).id := by
  refine ⟨by decide, by decide⟩

/-- C1: every `SmartBrain.solve` call — whatever the query, language,
threshold, brain state, score function or web backends — raises `NameError`
instead of returning a result: `solve` first calls `_log_query`, which
evaluates `time.strftime(...)`, and Brain.py never imports `time`. -/
theorem solve_raises_nameError (score : String → String → Nat)
    (webOutcomes : List BackendOutcome) (bs : SmartBrainState)
    (query lang : String) (minConf : Nat) :
    solve score webOutcomes bs query lang minConf = Except.error PyExc.nameError := rfl

/-- C6: `InternetBrain.search` is a total function of the backend outcomes
(the `except Exception: continue` handler swallows every backend error, so
nothing raises to the caller), its result is never the empty string, and when
every backend fails — raises, returns `None`, or returns an empty result —
the fixed "no results" sentinel is returned. -/
theorem search_total_nonempty (outs : List BackendOutcome) :
    searchLoop outs ≠ ""
    ∧ ((∀ o ∈ outs, backendFailed o = true) → searchLoop outs = noResultsSentinel) := by
  induction outs with
  | nil => exact ⟨by decide, fun _ => rfl⟩
  | cons o rest ih =>
    constructor
    · cases o with
      | error e => simpa [searchLoop] using ih.1
      | ok r =>
        cases r with
        | none => simpa [searchLoop, pyTruthy] using ih.1
        | some s =>
          by_cases hs : s = ""
          · subst hs
            simpa [searchLoop, pyTruthy] using ih.1
          · simp [searchLoop, pyTruthy, hs]
    · intro hall
      have hrest := ih.2 (fun o' ho' => hall o' (List.mem_cons_of_mem _ ho'))
      have hhead : backendFailed o = true := hall o (List.mem_cons_self _ _)
      cases o with
      | error e => simpa [searchLoop] using hrest
      | ok r =>
        have hft : pyTruthy r = false := by
          simpa [backendFailed] using hhead
        simp [searchLoop, hft, hrest]

/-- Witness for C6: with one raising backend, one `None` parse and one empty
parse, `search` returns the sentinel. -/
theorem search_total_nonempty_witness :
    searchLoop [Except.error (), Except.ok none, Except.ok (some "")] = noResultsSentinel :=
  (search_total_nonempty [Except.error (), Except.ok none, Except.ok (some "")]).2 (by decide)

/-- C8: `AutoHealer.heal` evaluated at the failing input.  On a Windows host
where the network commands are unavailable, `subprocess.run` raises
`FileNotFoundError` (an `OSError`), and `heal(NETWORK)` propagates it instead
of returning a boolean, because `_heal_network` catches only
`subprocess.CalledProcessError` — unlike the bare `except:` of the five other
actions.  The second conjunct shows the contrast: a command failing with a
nonzero exit status IS swallowed into `False`. -/
theorem heal_network_raises :
    heal cexHealEnv ProblemType.NETWORK = Except.error PyExc.osError
    ∧ healNetwork (fun _ => CmdOutcome.exitNonzero) true = Except.ok false
    ∧ heal cexHealEnv ProblemType.POWER = Except.ok true
    ∧ heal cexHealEnv ProblemType.STORAGE = Except.ok true := by
  refine ⟨rfl, rfl, rfl, rfl⟩

end Techsewa
